import Mathlib

/- Verification of the k8stream event pipeline: the dispatch handler (deduplication,
   enrichment, reverse-index maintenance) and the buntdb-backed cache. External
   collaborators whose implementation is not part of the handler source (the
   orchestration-API client, the record-returning store lookup and prefix listing the
   handler calls, and the batching stage's dedup recording) are modelled from the
   specification and marked as such in their doc comments. -/

/-- JSON document values. Payloads stored in the cache are modelled as parsed JSON
documents; the json library's byte rendering is abstracted away except where the
pipeline embeds a rendered document as a string. -/
inductive Json where
  | str (s : String)
  | num (n : Int)
  | bool (b : Bool)
  | null
  | arr (xs : List Json)
  | obj (fields : List (String × Json))

/-- Point lookup in an association list (first binding wins). -/
def kvGet {α : Type} : List (String × α) → String → Option α
  | [], _ => none
  | (k', v) :: rest, k => if k = k' then some v else kvGet rest k

/-- Upsert in an association list: the old binding for the key is removed and the new
one is put in front, so keys stay unique. -/
def kvSet {α : Type} (d : List (String × α)) (k : String) (v : α) : List (String × α) :=
  (k, v) :: d.filter (fun kv => !(kv.1 == k))

/-- makeKey from cache.go: composite key, table name and id joined by a dash. -/
def makeKey (table uid : String) : String := table ++ "-" ++ uid

/-- Remove a leading character sequence, or fail when it is not a prefix. -/
def stripPre : List Char → List Char → Option (List Char)
  | [], s => some s
  | _ :: _, [] => none
  | c :: p, d :: s => if c = d then stripPre p s else none

/-- Remove a leading string, or fail when it is not a prefix. -/
def strStripPre (p s : String) : Option String :=
  (stripPre p.data s.data).map String.mk

/-- Byte-lexicographic strict order on character lists, as Go compares strings. -/
def lexLt : List Char → List Char → Bool
  | [], [] => false
  | [], _ :: _ => true
  | _ :: _, [] => false
  | a :: as, b :: bs =>
    if a.toNat < b.toNat then true
    else if b.toNat < a.toNat then false
    else lexLt as bs

/-- Go's string less-than, byte-lexicographic. -/
def strLt (a b : String) : Bool := lexLt a.data b.data

/-- ASCII lowercase of one character. -/
def lowerChar (c : Char) : Char :=
  if 65 ≤ c.toNat ∧ c.toNat ≤ 90 then Char.ofNat (c.toNat + 32) else c

/-- strings.ToLower restricted to ASCII, as used on object kinds. -/
def lowerStr (s : String) : String := String.mk (s.data.map lowerChar)

/-- Errors surfaced by the cache layer: buntdb's not-found and closed-database
errors, plus json marshal and unmarshal failures. -/
inductive CacheErr where
  | errNotFound
  | errDatabaseClosed
  | marshalFailure
  | unmarshalFailure

/-- State of the embedded buntdb store from cache.go: committed key/value pairs, the
names of the registered secondary indices, and whether the database has been closed.
A closed database makes every transaction fail, which models a genuine store I/O
failure as opposed to a mere missing key. -/
structure Cache where
  data : List (String × Json)
  indices : List String
  closed : Bool

/-- Fields of a core/v1 ObjectReference read by the handler. -/
structure ObjectReference where
  uid : String
  name : String
  apiVersion : String
  kind : String
  ns : String

/-- Fields of a core/v1 EventSource read by the handler. -/
structure EventSource where
  component : String
  host : String

/-- Fields of a core/v1 Event read by the handler. -/
structure KEvent where
  uid : String
  ns : String
  involvedObject : ObjectReference
  source : EventSource
  message : String
  reason : String
  creationTimestamp : Int

/-- Fields of a core/v1 Service read by the handler. -/
structure KService where
  uid : String
  name : String
  ns : String
  resourceVersion : String
  labels : List (String × String)
  annotations : List (String × String)

/-- Fields of a core/v1 Pod read by the handler. -/
structure KPod where
  uid : String
  name : String
  ns : String
  startTime : Option Int
  podIP : String
  hostIP : String

/-- An unstructured object returned by the dynamic lookup. The asPod field is the
outcome of decoding it through the core/v1 codec (unstructuredToPod); none models a
decoding failure. -/
structure Unstructured where
  kind : String
  ns : String
  uid : String
  labels : List (String × String)
  annotations : List (String × String)
  asPod : Option KPod

/-- Values held in the pod detail map (a map from string to interface in the source):
plain strings, an optional start time, a list of service names, or an embedded
rendered document. -/
inductive PodVal where
  | str (s : String)
  | timeRef (t : Option Int)
  | strList (l : List String)

/-- Output record pushed to the batching channel; fields follow the source struct. -/
structure L9Event where
  ID : String := ""
  Timestamp : Int := 0
  Component : String := ""
  Host : String := ""
  Message : String := ""
  Namespace : String := ""
  Reason : String := ""
  ReferenceUID : String := ""
  ReferenceNamespace : String := ""
  ReferenceName : String := ""
  ReferenceKind : String := ""
  ReferenceVersion : String := ""
  ObjectUid : String := ""
  Labels : List (String × String) := []
  Annotations : List (String × String) := []
  Address : List String := []
  Pod : Option (List (String × PodVal)) := none

/-- Values the pipeline hands to the cache for storage. The unserializable variant
stands for a value on which json marshaling fails. -/
inductive StoredVal where
  | svc (s : KService)
  | pods (ps : List KPod)
  | flag (b : Bool)
  | l9 (e : L9Event)
  | unserializable

/-- JSON encoding of a string map. -/
def encStrMap (m : List (String × String)) : Json :=
  .obj (m.map fun kv => (kv.1, .str kv.2))

/-- JSON encoding of a pod detail value. -/
def encPodVal : PodVal → Json
  | .str s => .str s
  | .timeRef none => .null
  | .timeRef (some t) => .num t
  | .strList l => .arr (l.map Json.str)

/-- Helper for omitempty string fields. -/
def omitStr (k s : String) : List (String × Json) :=
  if s = "" then [] else [(k, .str s)]

/-- Helper for omitempty integer fields. -/
def omitInt (k : String) (n : Int) : List (String × Json) :=
  if n = 0 then [] else [(k, .num n)]

/-- Helper for omitempty map fields. -/
def omitStrMap (k : String) (m : List (String × String)) : List (String × Json) :=
  if m = [] then [] else [(k, encStrMap m)]

/-- Helper for omitempty list fields. -/
def omitStrList (k : String) (l : List String) : List (String × Json) :=
  if l = [] then [] else [(k, .arr (l.map Json.str))]

/-- JSON encoding of an L9Event following the struct's json tags, all omitempty. -/
def marshalL9 (e : L9Event) : Json :=
  .obj (omitStr "id" e.ID ++ omitInt "timestamp" e.Timestamp
    ++ omitStr "component" e.Component ++ omitStr "host" e.Host
    ++ omitStr "message" e.Message ++ omitStr "namespace" e.Namespace
    ++ omitStr "reason" e.Reason ++ omitStr "reference_uid" e.ReferenceUID
    ++ omitStr "reference_namespace" e.ReferenceNamespace
    ++ omitStr "reference_name" e.ReferenceName
    ++ omitStr "reference_kind" e.ReferenceKind
    ++ omitStr "reference_version" e.ReferenceVersion
    ++ omitStr "object_uid" e.ObjectUid ++ omitStrMap "labels" e.Labels
    ++ omitStrMap "annotations" e.Annotations ++ omitStrList "address" e.Address
    ++ (match e.Pod with
        | none => []
        | some m => [("pod", Json.obj (m.map fun kv => (kv.1, encPodVal kv.2)))]))

/-- JSON encoding of a core/v1 Service; the library's nested wire layout is
abstracted to a flat object carrying the fields the pipeline reads back. -/
def marshalSvc (s : KService) : Json :=
  .obj [("uid", .str s.uid), ("name", .str s.name), ("namespace", .str s.ns),
        ("resourceVersion", .str s.resourceVersion),
        ("labels", encStrMap s.labels), ("annotations", encStrMap s.annotations)]

/-- JSON encoding of a core/v1 Pod, likewise flattened. -/
def marshalPod (p : KPod) : Json :=
  .obj [("uid", .str p.uid), ("name", .str p.name), ("namespace", .str p.ns),
        ("startTime", encPodVal (.timeRef p.startTime)),
        ("podIP", .str p.podIP), ("hostIP", .str p.hostIP)]

/-- json.Marshal over the values the pipeline stores; fails exactly on values the
json package cannot serialize. -/
def marshal : StoredVal → Option Json
  | .svc s => some (marshalSvc s)
  | .pods ps => some (.arr (ps.map marshalPod))
  | .flag b => some (.bool b)
  | .l9 e => some (marshalL9 e)
  | .unserializable => none

/-- Decode a string field: absent or null keeps the zero value, a wrong type fails,
matching json.Unmarshal. -/
def decStr : Option Json → Option String
  | none => some ""
  | some .null => some ""
  | some (.str s) => some s
  | _ => none

/-- Decode an integer field under json.Unmarshal field semantics. -/
def decInt : Option Json → Option Int
  | none => some 0
  | some .null => some 0
  | some (.num n) => some n
  | _ => none

/-- Decode one binding of a string map. -/
def decStrPair : (String × Json) → Option (String × String)
  | (k, .str v) => some (k, v)
  | _ => none

/-- Decode a string map field under json.Unmarshal field semantics. -/
def decStrMap : Option Json → Option (List (String × String))
  | none => some []
  | some .null => some []
  | some (.obj fs) => fs.mapM decStrPair
  | _ => none

/-- Decode one element of a string list. -/
def decStrItem : Json → Option String
  | .str s => some s
  | _ => none

/-- Decode a string list field under json.Unmarshal field semantics. -/
def decStrList : Option Json → Option (List String)
  | none => some []
  | some .null => some []
  | some (.arr xs) => xs.mapM decStrItem
  | _ => none

/-- Decode a pod detail value. -/
def decPodVal : Json → Option PodVal
  | .str s => some (.str s)
  | .null => some (.timeRef none)
  | .num n => some (.timeRef (some n))
  | .arr xs => (xs.mapM decStrItem).map PodVal.strList
  | _ => none

/-- Decode one binding of a pod detail map. -/
def decPodEntry : (String × Json) → Option (String × PodVal)
  | (k, v) => (decPodVal v).map fun pv => (k, pv)

/-- Decode the optional pod map field under json.Unmarshal field semantics. -/
def decPodMap : Option Json → Option (Option (List (String × PodVal)))
  | none => some none
  | some .null => some none
  | some (.obj fs) => (fs.mapM decPodEntry).map some
  | _ => none

/-- json.Unmarshal of a stored payload into an L9Event value. -/
def unmarshalL9 : Json → Option L9Event
  | .obj fs => do
    let i ← decStr (kvGet fs "id")
    let ts ← decInt (kvGet fs "timestamp")
    let comp ← decStr (kvGet fs "component")
    let host ← decStr (kvGet fs "host")
    let msg ← decStr (kvGet fs "message")
    let nsf ← decStr (kvGet fs "namespace")
    let rsn ← decStr (kvGet fs "reason")
    let ruid ← decStr (kvGet fs "reference_uid")
    let rns ← decStr (kvGet fs "reference_namespace")
    let rname ← decStr (kvGet fs "reference_name")
    let rkind ← decStr (kvGet fs "reference_kind")
    let rver ← decStr (kvGet fs "reference_version")
    let ouid ← decStr (kvGet fs "object_uid")
    let lbl ← decStrMap (kvGet fs "labels")
    let ann ← decStrMap (kvGet fs "annotations")
    let addr ← decStrList (kvGet fs "address")
    let pd ← decPodMap (kvGet fs "pod")
    pure ⟨i, ts, comp, host, msg, nsf, rsn, ruid, rns, rname, rkind, rver, ouid,
          lbl, ann, addr, pd⟩
  | _ => none

/-- json.Unmarshal of a stored payload into a core/v1 Service value (the fields the
pipeline reads). -/
def unmarshalSvc : Json → Option KService
  | .obj fs => do
    let uid ← decStr (kvGet fs "uid")
    let name ← decStr (kvGet fs "name")
    let nsf ← decStr (kvGet fs "namespace")
    let rv ← decStr (kvGet fs "resourceVersion")
    let lbl ← decStrMap (kvGet fs "labels")
    let ann ← decStrMap (kvGet fs "annotations")
    pure ⟨uid, name, nsf, rv, lbl, ann⟩
  | _ => none

/-- Get from cache.go: a View transaction reading the composite key. A miss sets the
missing flag and surfaces buntdb's pre-constructed ErrNotFound through the returned
error; a closed database fails with missing still false. The value read, which the
source feeds to the caller's json.Unmarshal, is returned alongside. -/
def Cache.Get (c : Cache) (table uid : String) : Bool × Option Json × Option CacheErr :=
  if c.closed then (false, none, some .errDatabaseClosed)
  else
    match kvGet c.data (makeKey table uid) with
    | none => (true, none, some .errNotFound)
    | some v => (false, some v, none)

/-- ExpireSet from cache.go: marshal the value first, then inside one Update
transaction enumerate the indices, register the table's string index when absent,
and set the composite key. Per-entry expiration metadata is not modelled: no
pipeline read in this development depends on expiry, and a nonpositive ttl already
means no expiration in the source. -/
def Cache.ExpireSet (c : Cache) (table uid : String) (obj : StoredVal) (expires : Int) :
    Except CacheErr Cache :=
  match marshal obj with
  | none => .error .marshalFailure
  | some b =>
    if c.closed then .error .errDatabaseClosed
    else
      let c1 : Cache :=
        if table ∈ c.indices then c else { c with indices := table :: c.indices }
      .ok { c1 with data := kvSet c1.data (makeKey table uid) b }

/-- Set from cache.go: a wrapper around ExpireSet with a no-expiration intent. -/
def Cache.Set (c : Cache) (table uid : String) (obj : StoredVal) : Except CacheErr Cache :=
  Cache.ExpireSet c table uid obj 0

/-- Modelled from the spec: the record-returning point lookup the handler calls
(the file implementing it is not part of the handler source; only the older
three-argument Cache.Get is). Spec 4.1: get(table, id) yields Record or NotFound,
distinguishing found from not found without a sentinel collision, a miss being a
non-error outcome; a store failure (closed database) is surfaced as an error. -/
def dbGet (c : Cache) (table uid : String) : Except CacheErr (Option Json) :=
  if c.closed then .error .errDatabaseClosed
  else .ok (kvGet c.data (makeKey table uid))

/-- Modelled from the spec: db.List, the prefix listing the handler calls, whose
implementation is not part of the handler source. Spec 4.1: listByPrefix returns all
ids whose composite key matches the prefix. -/
def dbList (c : Cache) (pre : String) : Except CacheErr (List String) :=
  if c.closed then .error .errDatabaseClosed
  else .ok (c.data.filterMap fun kv => strStripPre (pre ++ "-") kv.1)

/-- Modelled from the spec: the orchestration-API collaborator (the client file is
not part of the handler source): resolveObject, resolveNodeAddress and
resolvePodsForService, each fallible. -/
structure KClient where
  getObject : ObjectReference → Except String (Option Unstructured)
  getNodeAddress : String → Except String (List String)
  getPods : KService → Except String (List KPod)

/-- Errors a handler callback can return; OnAdd, OnUpdate and OnDelete only log
them. -/
inductive HErr where
  | cache (e : CacheErr)
  | client (msg : String)
  | decode

/-- Result of one handler call: the cache state afterwards, the events pushed onto
the batching channel, and the returned error (none on success). -/
structure HRes where
  st : Cache
  out : List L9Event
  err : Option HErr

/-- miniPodInfo from handler.go. -/
def miniPodInfo (p : KPod) : List (String × PodVal) :=
  [("uid", .str p.uid), ("name", .str p.name), ("namespace", .str p.ns),
   ("start_time", .timeRef p.startTime), ("ip", .str p.podIP),
   ("host_ip", .str p.hostIP)]

/-- Loop body of getPodServices: resolve each listed service id through the store,
skipping ids whose lookup errs, misses, or fails to unmarshal. -/
def resolveServiceNames (db : Cache) : List String → List String
  | [] => []
  | sId :: rest =>
    match dbGet db "service" sId with
    | .ok (some j) =>
      match unmarshalSvc j with
      | some v => v.name :: resolveServiceNames db rest
      | none => resolveServiceNames db rest
    | _ => resolveServiceNames db rest

/-- getPodServices from handler.go: list the pod-service reverse index by prefix,
then resolve each service id to its stored name. The error returned with the names
is the one from the List call: the per-id errors inside the loop shadow the outer
variable and are dropped. -/
def getPodServices (db : Cache) (uid : String) : List String × Option CacheErr :=
  match dbList db (makeKey "pod-service" uid) with
  | .error e => ([], some e)
  | .ok serviceIds => (resolveServiceNames db serviceIds, none)

/-- addPodDetails from handler.go: on a pod-kind object, decode the pod, set the pod
mini-info map on the event, and attach impacted_services from the reverse index.
The assignment of the impacted_services entry happens even when the lookup returns an
error, and the map mutation survives the error return. -/
def addPodDetails (db : Cache) (ne : L9Event) (u : Unstructured) : L9Event × Option HErr :=
  if lowerStr u.kind ≠ "pod" then (ne, none)
  else
    match u.asPod with
    | none => (ne, some .decode)
    | some p =>
      let pm := miniPodInfo p
      let r := getPodServices db p.uid
      ({ ne with Pod := some (kvSet pm "impacted_services" (.strList r.1)) },
       r.2.map HErr.cache)

/-- makeL9Event from handler.go: build the enriched event from the raw event, then,
when the involved object resolved, add pod details (an error there is only logged)
and the reference fields taken from the object. -/
def makeL9Event (db : Cache) (e : KEvent) (u : Option Unstructured)
    (address : List String) : L9Event :=
  let ne : L9Event :=
    { ID := e.uid, Timestamp := e.creationTimestamp, Component := e.source.component,
      Host := e.source.host, Message := e.message, Namespace := e.ns,
      Reason := e.reason, ReferenceUID := e.involvedObject.uid,
      ReferenceName := e.involvedObject.name,
      ReferenceVersion := e.involvedObject.apiVersion, Address := address }
  match u with
  | none => ne
  | some uu =>
    let ne1 := (addPodDetails db ne uu).1
    { ne1 with
      ReferenceNamespace := uu.ns
      ReferenceKind := uu.kind
      ObjectUid := uu.uid
      Labels := uu.labels
      Annotations := uu.annotations }

/-- Rendered json.Marshal output for one pod's mini info, embedded as a string in
the service event's pod map (marshaling of these scalar values cannot fail). Keys
appear in the sorted order the json package uses for maps. -/
def renderMiniPod (p : KPod) : String :=
  "\x7b\x22host_ip\x22:\x22" ++ p.hostIP ++ "\x22,\x22ip\x22:\x22" ++ p.podIP
    ++ "\x22,\x22name\x22:\x22" ++ p.name ++ "\x22,\x22namespace\x22:\x22" ++ p.ns
    ++ "\x22,\x22start_time\x22:"
    ++ (match p.startTime with
        | none => "null"
        | some t => toString t)
    ++ ",\x22uid\x22:\x22" ++ p.uid ++ "\x22\x7d"

/-- Pod map of a service event: one entry per pod, keyed by pod name, holding the
rendered mini info. -/
def servicePodMap (pods : List KPod) : List (String × PodVal) :=
  pods.foldl (fun m p => kvSet m p.name (.str (renderMiniPod p))) []

/-- makeL9ServiceEvent from handler.go; the wall-clock timestamp is passed in
explicitly. -/
def makeL9ServiceEvent (db : Cache) (s : KService) (pods : List KPod)
    (eventType : String) (now : Int) : L9Event :=
  { ID := s.uid ++ "-" ++ s.resourceVersion, Timestamp := now, Component := s.name,
    Host := "", Message := eventType, Namespace := s.ns, Reason := eventType,
    ReferenceUID := "", ReferenceNamespace := "", ReferenceName := "",
    ReferenceKind := "", ReferenceVersion := s.resourceVersion, ObjectUid := s.uid,
    Labels := s.labels, Annotations := s.annotations, Address := [],
    Pod := some (servicePodMap pods) }

/-- Loop in onService writing one pod to service reverse-index entry per resolved
pod, stopping at the first failing write. -/
def setPodService (st : Cache) (pods : List KPod) (suid : String) :
    Cache × Option CacheErr :=
  match pods with
  | [] => (st, none)
  | p :: rest =>
    match Cache.Set st (makeKey "pod-service" p.uid) suid (.flag true) with
    | .error e => (st, some e)
    | .ok st' => setPodService st' rest suid

/-- Continuation of onService past the dedup gate: persist the service, resolve its
pods, persist the service to pods mapping, write the reverse index, and push the
denormalized service event. -/
def saveService (cl : KClient) (now : Int) (st : Cache) (s : KService)
    (eventType : String) : HRes :=
  match Cache.Set st "service" s.uid (.svc s) with
  | .error e => ⟨st, [], some (.cache e)⟩
  | .ok st1 =>
    match cl.getPods s with
    | .error m => ⟨st1, [], some (.client m)⟩
    | .ok pods =>
      match Cache.Set st1 "service-pods" s.uid (.pods pods) with
      | .error e => ⟨st1, [], some (.cache e)⟩
      | .ok st2 =>
        match setPodService st2 pods s.uid with
        | (st3, some e) => ⟨st3, [], some (.cache e)⟩
        | (st3, none) =>
          ⟨st3, [makeL9ServiceEvent st3 s pods eventType now], none⟩

/-- onService from handler.go: skip the system namespaces and the cluster's own
default service, then look up the prior record for the service uid in the events
table; when one exists and carries an equal or newer reference version (byte-wise
string comparison, as Go compares strings), skip; otherwise store and forward. -/
def onService (cl : KClient) (now : Int) (st : Cache) (s : KService)
    (eventType : String) : HRes :=
  if s.ns = "kube-system" ∨ s.ns = "kubernetes-dashboard" then ⟨st, [], none⟩
  else if s.name = "kubernetes" then ⟨st, [], none⟩
  else
    match dbGet st "events" s.uid with
    | .error e => ⟨st, [], some (.cache e)⟩
    | .ok (some j) =>
      match unmarshalL9 j with
      | none => ⟨st, [], some (.cache .unmarshalFailure)⟩
      | some ex =>
        if strLt ex.ReferenceVersion s.resourceVersion then
          saveService cl now st s eventType
        else ⟨st, [], none⟩
    | .ok none => saveService cl now st s eventType

/-- onEvent from handler.go: skip the system namespaces, drop the event when its uid
is already present in the events table, otherwise resolve the involved object and
the node address (failures only logged) and push the enriched event. -/
def onEvent (cl : KClient) (st : Cache) (e : KEvent) : HRes :=
  if e.ns = "kube-system" ∨ e.ns = "kubernetes" ∨ e.ns = "kubernetes-dashboard" then
    ⟨st, [], none⟩
  else
    match dbGet st "events" e.uid with
    | .error er => ⟨st, [], some (.cache er)⟩
    | .ok (some _) => ⟨st, [], none⟩
    | .ok none =>
      let obj : Option Unstructured :=
        match cl.getObject e.involvedObject with
        | .error _ => none
        | .ok u => u
      let addr : List String :=
        match cl.getNodeAddress e.source.host with
        | .error _ => []
        | .ok a => a
      ⟨st, [makeL9Event st e obj addr], none⟩

/-- A value delivered by the informer to a handler callback (an interface object in
the source: an event, a service, or some unsupported kind). -/
inductive SinkObj where
  | ev (e : KEvent)
  | svc (s : KService)
  | other

/-- OnAdd from handler.go: dispatch on the object's dynamic type; a returned error
is only logged. -/
def OnAdd (cl : KClient) (now : Int) (st : Cache) (obj : SinkObj) :
    Cache × List L9Event :=
  match obj with
  | .ev e => let r := onEvent cl st e; (r.st, r.out)
  | .svc s => let r := onService cl now st s "addedService"; (r.st, r.out)
  | .other => (st, [])

/-- OnUpdate from handler.go: dispatch on the new object's dynamic type only; the
old object is never inspected. -/
def OnUpdate (cl : KClient) (now : Int) (st : Cache) (oldObj newObj : SinkObj) :
    Cache × List L9Event :=
  match newObj with
  | .ev e => let r := onEvent cl st e; (r.st, r.out)
  | .svc s => let r := onService cl now st s "updatedService"; (r.st, r.out)
  | .other => (st, [])

/-- OnDelete from handler.go. -/
def OnDelete (cl : KClient) (now : Int) (st : Cache) (obj : SinkObj) :
    Cache × List L9Event :=
  match obj with
  | .ev e => let r := onEvent cl st e; (r.st, r.out)
  | .svc s => let r := onService cl now st s "deletedService"; (r.st, r.out)
  | .other => (st, [])

/-- Modelled from the spec: the batching stage records each forwarded event under
its dedup identity (the id field: the event uid, or serviceUID dash resourceVersion
for a service change) in the events table. This write belongs to the batch code,
which is not part of the handler source (spec sections 3 and 4.2). -/
def recordOutputs : Cache → List L9Event → Cache
  | st, [] => st
  | st, ev :: rest =>
    recordOutputs
      { st with data := kvSet st.data (makeKey "events" ev.ID) (marshalL9 ev) } rest

/-- Lifetime run of the pipeline over a stream of event notifications: each
delivered event is handled by onEvent, then the identities of the forwarded events
are recorded. -/
def runEvents (cl : KClient) : Cache → List KEvent → Cache × List L9Event
  | st, [] => (st, [])
  | st, e :: rest =>
    let r := onEvent cl st e
    let st1 := recordOutputs r.st r.out
    let res := runEvents cl st1 rest
    (res.1, r.out ++ res.2)

/-- Lifetime run of the pipeline over a stream of service-change notifications,
recording forwarded identities after each call; the per-call outputs are kept
separate. -/
def runServices (cl : KClient) (now : Int) (eventType : String) :
    Cache → List KService → Cache × List (List L9Event)
  | st, [] => (st, [])
  | st, s :: rest =>
    let r := onService cl now st s eventType
    let st1 := recordOutputs r.st r.out
    let res := runServices cl now eventType st1 rest
    (res.1, r.out :: res.2)

/-- Concrete pod fixture for instantiating the verified statements. -/
def exPod : KPod := ⟨"P1", "pod1", "default", some 5, "10.0.0.1", "192.168.0.1"⟩

/-- Concrete service fixture, resource version 7. -/
def exSvc : KService := ⟨"S1uid", "S1", "default", "7", [], []⟩

/-- The same service at resource version 8. -/
def exSvc8 : KService := ⟨"S1uid", "S1", "default", "8", [], []⟩

/-- Concrete unstructured object that decodes to exPod. -/
def exObj : Unstructured := ⟨"Pod", "default", "P1", [], [], some exPod⟩

/-- Concrete involved-object reference. -/
def exRef : ObjectReference := ⟨"P1", "pod1", "v1", "Pod", "default"⟩

/-- Concrete event fixture. -/
def exEvent : KEvent :=
  ⟨"E1", "default", exRef, ⟨"kubelet", "node1"⟩, "started", "Started", 99⟩

/-- Client whose lookups all succeed. -/
def exClient : KClient :=
  ⟨fun _ => .ok (some exObj), fun _ => .ok ["10.0.0.9"], fun _ => .ok [exPod]⟩

/-- Client whose lookups all fail. -/
def exClientFail : KClient :=
  ⟨fun _ => .error "object lookup failed", fun _ => .error "no address",
   fun _ => .error "no pods"⟩

/-- Client whose object lookup fails while the address lookup succeeds. -/
def exClientObjFail : KClient :=
  ⟨fun _ => .error "object lookup failed", fun _ => .ok ["10.0.0.9"],
   fun _ => .ok [exPod]⟩

/-- Client whose address lookup fails while the object lookup succeeds. -/
def exClientAddrFail : KClient :=
  ⟨fun _ => .ok (some exObj), fun _ => .error "no address", fun _ => .ok [exPod]⟩

/-- Empty open store. -/
def exStore : Cache := ⟨[], [], false⟩

/-- Empty closed store, modelling a store I/O failure. -/
def exStoreClosed : Cache := ⟨[], [], true⟩

/-- Store in which event identity E1 is already recorded. -/
def exStorePresent : Cache := ⟨[(makeKey "events" "E1", Json.bool true)], [], false⟩

/-- Store in which the service uid is recorded with reference version 9. -/
def exStoreSvcSeen : Cache :=
  ⟨[(makeKey "events" "S1uid", marshalL9 { ID := "S1uid-9", ReferenceVersion := "9" })],
   [], false⟩

/- Association list lemmas. -/

theorem kvGet_kvSet_self {α : Type} (d : List (String × α)) (k : String) (v : α) :
    kvGet (kvSet d k v) k = some v := by
  simp [kvGet, kvSet]

theorem kvGet_filter_ne {α : Type} (d : List (String × α)) (k k' : String) (h : k' ≠ k) :
    kvGet (d.filter (fun kv => !(kv.1 == k))) k' = kvGet d k' := by
  induction d with
  | nil => rfl
  | cons a rest ih =>
    cases a with
    | mk a1 a2 =>
      by_cases ha : a1 = k
      · have hb : (a1 == k) = true := by simpa using ha
        have hk' : k' ≠ a1 := fun hh => h (hh.trans ha)
        simp [List.filter, hb, kvGet, ih, hk']
      · have hb : (a1 == k) = false := by simpa using ha
        simp [List.filter, hb, kvGet, ih]

theorem kvGet_kvSet_ne {α : Type} (d : List (String × α)) (k k' : String) (v : α)
    (h : k' ≠ k) : kvGet (kvSet d k v) k' = kvGet d k' := by
  simp [kvSet, kvGet, h, kvGet_filter_ne d k k' h]

/- String and key lemmas. -/

theorem stripPre_append (p s : List Char) : stripPre p (p ++ s) = some s := by
  induction p with
  | nil => rfl
  | cons c p ih => simp [stripPre, ih]

theorem strStripPre_makeKey (t u : String) :
    strStripPre (t ++ "-") (makeKey t u) = some u := by
  unfold strStripPre makeKey
  have h : (t ++ "-" ++ u).data = (t ++ "-").data ++ u.data := by
    simp [String.data_append]
  rw [h, stripPre_append]
  rfl

theorem makeKey_data (t u : String) :
    (makeKey t u).data = t.data ++ '-' :: u.data := by
  simp [makeKey, String.data_append]

theorem makeKey_ne_of_head {l₁ l₂ : List Char} (t₁ t₂ u₁ u₂ : String) (c d : Char)
    (h1 : t₁.data = c :: l₁) (h2 : t₂.data = d :: l₂) (hcd : c ≠ d) :
    makeKey t₁ u₁ ≠ makeKey t₂ u₂ := by
  intro h
  have hd := congrArg String.data h
  rw [makeKey_data, makeKey_data, h1, h2] at hd
  simp at hd
  exact hcd hd.1

theorem makeKey_ne_of_len (t₁ t₂ u₁ u₂ : String)
    (h : t₁.data.length + u₁.data.length ≠ t₂.data.length + u₂.data.length) :
    makeKey t₁ u₁ ≠ makeKey t₂ u₂ := by
  intro he
  have hd := congrArg (fun s : String => s.data.length) he
  simp only [makeKey_data, List.length_append, List.length_cons] at hd
  omega

theorem strStripPre_ne_head {l₁ l₂ : List Char} (p s : String) (c d : Char)
    (h1 : p.data = c :: l₁) (h2 : s.data = d :: l₂) (hcd : c ≠ d) :
    strStripPre p s = none := by
  unfold strStripPre
  rw [h1, h2]
  simp [stripPre, hcd]

/- Cache primitive lemmas. -/

theorem ExpireSet_ok (c : Cache) (t u : String) (obj : StoredVal) (ttl : Int)
    (b : Json) (hm : marshal obj = some b) (hc : c.closed = false) :
    Cache.ExpireSet c t u obj ttl =
      .ok ⟨kvSet c.data (makeKey t u) b,
           if t ∈ c.indices then c.indices else t :: c.indices, false⟩ := by
  cases c with
  | mk d i cl =>
    simp at hc
    subst hc
    by_cases hi : t ∈ i
    · simp [Cache.ExpireSet, hm, hi]
    · simp [Cache.ExpireSet, hm, hi]

theorem ExpireSet_marshal_fail (c : Cache) (t u : String) (obj : StoredVal)
    (ttl : Int) (hm : marshal obj = none) :
    Cache.ExpireSet c t u obj ttl = .error .marshalFailure := by
  simp [Cache.ExpireSet, hm]

theorem Set_ok (c : Cache) (t u : String) (obj : StoredVal) (b : Json)
    (hm : marshal obj = some b) (hc : c.closed = false) :
    Cache.Set c t u obj =
      .ok ⟨kvSet c.data (makeKey t u) b,
           if t ∈ c.indices then c.indices else t :: c.indices, false⟩ :=
  ExpireSet_ok c t u obj 0 b hm hc

theorem Get_found (c : Cache) (t u : String) (v : Json) (hc : c.closed = false)
    (h : kvGet c.data (makeKey t u) = some v) :
    Cache.Get c t u = (false, some v, none) := by
  simp [Cache.Get, hc, h]

theorem Get_miss (c : Cache) (t u : String) (hc : c.closed = false)
    (h : kvGet c.data (makeKey t u) = none) :
    Cache.Get c t u = (true, none, some .errNotFound) := by
  simp [Cache.Get, hc, h]

theorem Get_closed (c : Cache) (t u : String) (hc : c.closed = true) :
    Cache.Get c t u = (false, none, some .errDatabaseClosed) := by
  simp [Cache.Get, hc]

theorem dbGet_open (c : Cache) (t u : String) (hc : c.closed = false) :
    dbGet c t u = .ok (kvGet c.data (makeKey t u)) := by
  simp [dbGet, hc]

theorem dbGet_closed (c : Cache) (t u : String) (hc : c.closed = true) :
    dbGet c t u = .error .errDatabaseClosed := by
  simp [dbGet, hc]

theorem dbList_open (c : Cache) (pre : String) (hc : c.closed = false) :
    dbList c pre = .ok (c.data.filterMap fun kv => strStripPre (pre ++ "-") kv.1) := by
  simp [dbList, hc]

/- Handler shape lemmas. -/

theorem onEvent_st_eq (cl : KClient) (st : Cache) (e : KEvent) :
    (onEvent cl st e).st = st := by
  unfold onEvent
  split
  · rfl
  · split <;> rfl

theorem onEvent_present_drop (cl : KClient) (st : Cache) (e : KEvent) (j : Json)
    (hc : st.closed = false) (h : kvGet st.data (makeKey "events" e.uid) = some j) :
    onEvent cl st e = ⟨st, [], none⟩ := by
  unfold onEvent
  split
  · rfl
  · rw [dbGet_open st "events" e.uid hc, h]

theorem addPodDetails_ID (db : Cache) (ne : L9Event) (u : Unstructured) :
    ((addPodDetails db ne u).1).ID = ne.ID := by
  unfold addPodDetails
  split
  · rfl
  · split <;> rfl

theorem makeL9Event_ID (db : Cache) (e : KEvent) (u : Option Unstructured)
    (a : List String) : (makeL9Event db e u a).ID = e.uid := by
  unfold makeL9Event
  cases u with
  | none => rfl
  | some uu => simp [addPodDetails_ID]

theorem onEvent_out_push (cl : KClient) (st : Cache) (e : KEvent) :
    (onEvent cl st e).out = [] ∨
      (st.closed = false ∧ kvGet st.data (makeKey "events" e.uid) = none ∧
        ∃ ev, (onEvent cl st e).out = [ev] ∧ ev.ID = e.uid) := by
  cases hc : st.closed with
  | true =>
    left
    unfold onEvent
    split
    · rfl
    · rw [dbGet_closed st _ _ hc]
  | false =>
    cases hk : kvGet st.data (makeKey "events" e.uid) with
    | some j => left; rw [onEvent_present_drop cl st e j hc hk]
    | none =>
      unfold onEvent
      split
      · left; rfl
      · rw [dbGet_open st _ _ hc, hk]
        right
        exact ⟨by simp [hc], by simp [hk], _, rfl, makeL9Event_ID st e _ _⟩

/- Recording lemmas. -/

theorem recordOutputs_closed (evs : List L9Event) : ∀ st : Cache,
    (recordOutputs st evs).closed = st.closed := by
  induction evs with
  | nil => intro st; rfl
  | cons ev rest ih => intro st; simp [recordOutputs, ih]

theorem kvGet_recordOutputs_ne (evs : List L9Event) (k : String)
    (h : ∀ ev ∈ evs, makeKey "events" ev.ID ≠ k) :
    ∀ st : Cache, kvGet (recordOutputs st evs).data k = kvGet st.data k := by
  induction evs with
  | nil => intro st; rfl
  | cons ev rest ih =>
    intro st
    rw [recordOutputs]
    rw [ih (fun x hx => h x (List.mem_cons_of_mem _ hx))]
    exact kvGet_kvSet_ne _ _ _ _ (fun hh => h ev (List.mem_cons_self _ _) hh.symm)

theorem kvGet_recordOutputs_present (evs : List L9Event) (k : String) :
    ∀ st : Cache, (kvGet st.data k).isSome →
      (kvGet (recordOutputs st evs).data k).isSome := by
  induction evs with
  | nil => intro st h; exact h
  | cons ev rest ih =>
    intro st h
    rw [recordOutputs]
    apply ih
    by_cases hk : k = makeKey "events" ev.ID
    · subst hk
      simp [kvGet_kvSet_self]
    · have hne := kvGet_kvSet_ne st.data (makeKey "events" ev.ID) k (marshalL9 ev) hk
      simp only [hne]
      simpa using h

/- Lifetime run lemmas for event deduplication. -/

theorem runEvents_present_nil (cl : KClient) (u : String) :
    ∀ es : List KEvent, (∀ e ∈ es, e.uid = u) →
      ∀ st : Cache, (kvGet st.data (makeKey "events" u)).isSome →
        (runEvents cl st es).2 = [] := by
  intro es
  induction es with
  | nil => intro _ st _; rfl
  | cons e rest ih =>
    intro hall st hp
    have hu : e.uid = u := hall e (List.mem_cons_self _ _)
    have hrest : ∀ x ∈ rest, x.uid = u := fun x hx => hall x (List.mem_cons_of_mem _ hx)
    cases onEvent_out_push cl st e with
    | inl hout =>
      simp only [runEvents]
      rw [hout]
      simp only [recordOutputs, onEvent_st_eq, List.nil_append]
      exact ih hrest st hp
    | inr hpush =>
      obtain ⟨hc, hk, ev, hout, hid⟩ := hpush
      rw [hu] at hk
      rw [hk] at hp
      simp at hp

theorem runEvents_le_one (cl : KClient) (u : String) :
    ∀ es : List KEvent, (∀ e ∈ es, e.uid = u) →
      ∀ st : Cache, (runEvents cl st es).2.length ≤ 1 := by
  intro es
  induction es with
  | nil => intro _ st; simp [runEvents]
  | cons e rest ih =>
    intro hall st
    have hu : e.uid = u := hall e (List.mem_cons_self _ _)
    have hrest : ∀ x ∈ rest, x.uid = u := fun x hx => hall x (List.mem_cons_of_mem _ hx)
    cases onEvent_out_push cl st e with
    | inl hout =>
      simp only [runEvents]
      rw [hout]
      simp only [recordOutputs, onEvent_st_eq, List.nil_append]
      exact ih hrest _
    | inr hpush =>
      obtain ⟨hc, hk, ev, hout, hid⟩ := hpush
      simp only [runEvents]
      rw [hout, onEvent_st_eq]
      have hpres : (kvGet (recordOutputs st [ev]).data (makeKey "events" u)).isSome := by
        simp only [recordOutputs]
        rw [hid, hu]
        have := kvGet_kvSet_self st.data (makeKey "events" u) (marshalL9 ev)
        simp [this]
      rw [runEvents_present_nil cl u rest hrest _ hpres]
      simp

/- Key head lemmas. -/

theorem makeKey_head {c : Char} {l : List Char} (t u : String) (h : t.data = c :: l) :
    (makeKey t u).data = c :: (l ++ '-' :: u.data) := by
  rw [makeKey_data, h]
  rfl

theorem ne_of_head_ne {k K : String} {c d : Char} {l : List Char}
    (h1 : k.data.head? = some c) (h2 : K.data = d :: l) (h : c ≠ d) : k ≠ K := by
  intro he
  subst he
  rw [h2] at h1
  simp at h1
  exact h h1.symm

/- Service path lemmas. -/

theorem setPodService_ok (suid : String) :
    ∀ (pods : List KPod) (st : Cache), st.closed = false →
      ∃ st', setPodService st pods suid = (st', none) ∧ st'.closed = false ∧
        ∀ k : String, k.data.head? ≠ some 'p' → kvGet st'.data k = kvGet st.data k := by
  intro pods
  induction pods with
  | nil => intro st hc; exact ⟨st, rfl, hc, fun k _ => rfl⟩
  | cons p rest ih =>
    intro st hc
    have hset := Set_ok st (makeKey "pod-service" p.uid) suid (.flag true) (.bool true)
      rfl hc
    obtain ⟨st', hrun, hc', hpres⟩ :=
      ih ⟨kvSet st.data (makeKey (makeKey "pod-service" p.uid) suid) (.bool true),
          if (makeKey "pod-service" p.uid) ∈ st.indices then st.indices
          else (makeKey "pod-service" p.uid) :: st.indices, false⟩ rfl
    refine ⟨st', ?_, hc', ?_⟩
    · simp only [setPodService]
      rw [hset]
      exact hrun
    · intro k hk
      rw [hpres k hk]
      apply kvGet_kvSet_ne
      intro he
      apply hk
      rw [he]
      rw [makeKey_head _ suid (makeKey_head "pod-service" p.uid rfl)]
      rfl

theorem saveService_ok (cl : KClient) (now : Int) (st : Cache) (s : KService)
    (et : String) (pods : List KPod) (hc : st.closed = false)
    (hp : cl.getPods s = .ok pods) :
    ∃ st', saveService cl now st s et = ⟨st', [makeL9ServiceEvent st' s pods et now], none⟩ ∧
      st'.closed = false ∧
      ∀ k : String, k.data.head? = some 'e' → kvGet st'.data k = kvGet st.data k := by
  have h1 := Set_ok st "service" s.uid (.svc s) (marshalSvc s) rfl hc
  have h2 := Set_ok
    ⟨kvSet st.data (makeKey "service" s.uid) (marshalSvc s),
     if "service" ∈ st.indices then st.indices else "service" :: st.indices, false⟩
    "service-pods" s.uid (.pods pods) (.arr (pods.map marshalPod)) rfl rfl
  obtain ⟨st3, hrun3, hc3, hpres3⟩ := setPodService_ok s.uid pods
    ⟨kvSet (kvSet st.data (makeKey "service" s.uid) (marshalSvc s))
        (makeKey "service-pods" s.uid) (.arr (pods.map marshalPod)),
     if "service-pods" ∈
          (if "service" ∈ st.indices then st.indices else "service" :: st.indices) then
        (if "service" ∈ st.indices then st.indices else "service" :: st.indices)
      else "service-pods" ::
        (if "service" ∈ st.indices then st.indices else "service" :: st.indices), false⟩ rfl
  refine ⟨st3, ?_, hc3, ?_⟩
  · simp only [saveService, h1, hp, h2, hrun3]
  · intro k hk
    have hkp : k.data.head? ≠ some 'p' := by
      rw [hk]
      simp
    rw [hpres3 k hkp]
    have hne1 : k ≠ makeKey "service" s.uid :=
      ne_of_head_ne hk (makeKey_head "service" s.uid rfl) (by decide)
    have hne2 : k ≠ makeKey "service-pods" s.uid :=
      ne_of_head_ne hk (makeKey_head "service-pods" s.uid rfl) (by decide)
    exact (kvGet_kvSet_ne _ _ _ _ hne2).trans (kvGet_kvSet_ne _ _ _ _ hne1)

theorem onService_process (cl : KClient) (now : Int) (st : Cache) (s : KService)
    (et : String) (pods : List KPod)
    (hns : ¬(s.ns = "kube-system" ∨ s.ns = "kubernetes-dashboard"))
    (hname : ¬(s.name = "kubernetes"))
    (hc : st.closed = false)
    (habs : kvGet st.data (makeKey "events" s.uid) = none)
    (hp : cl.getPods s = .ok pods) :
    ∃ st', onService cl now st s et = ⟨st', [makeL9ServiceEvent st' s pods et now], none⟩ ∧
      st'.closed = false ∧
      ∀ k : String, k.data.head? = some 'e' → kvGet st'.data k = kvGet st.data k := by
  obtain ⟨st', hrun, hc', hpres⟩ := saveService_ok cl now st s et pods hc hp
  refine ⟨st', ?_, hc', hpres⟩
  have hred : onService cl now st s et = saveService cl now st s et := by
    simp only [onService, hns, hname, dbGet_open st _ _ hc, habs, ite_false, if_neg]
  rw [hred]
  exact hrun

theorem saveService_not_skip (cl : KClient) (now : Int) (st : Cache) (s : KService)
    (et : String) :
    ¬((saveService cl now st s et).out = [] ∧ (saveService cl now st s et).err = none) := by
  rintro ⟨h1, h2⟩
  cases hS : Cache.Set st "service" s.uid (.svc s) with
  | error e => simp [saveService, hS] at h2
  | ok st1 =>
    cases hP : cl.getPods s with
    | error m => simp [saveService, hS, hP] at h2
    | ok pods =>
      cases hS2 : Cache.Set st1 "service-pods" s.uid (.pods pods) with
      | error e => simp [saveService, hS, hP, hS2] at h2
      | ok st2 =>
        cases hL : setPodService st2 pods s.uid with
        | mk st3 er =>
          cases er with
          | none => simp [saveService, hS, hP, hS2, hL] at h1
          | some e => simp [saveService, hS, hP, hS2, hL] at h2

theorem onService_skip_iff (cl : KClient) (now : Int) (st : Cache) (s : KService)
    (et : String)
    (hns : ¬(s.ns = "kube-system" ∨ s.ns = "kubernetes-dashboard"))
    (hname : ¬(s.name = "kubernetes"))
    (hc : st.closed = false) :
    ((onService cl now st s et).out = [] ∧ (onService cl now st s et).err = none) ↔
      (∃ j ex, kvGet st.data (makeKey "events" s.uid) = some j ∧
        unmarshalL9 j = some ex ∧
        strLt ex.ReferenceVersion s.resourceVersion = false) := by
  constructor
  · intro h
    cases hk : kvGet st.data (makeKey "events" s.uid) with
    | none =>
      exfalso
      have hred : onService cl now st s et = saveService cl now st s et := by
        simp only [onService, hns, hname, dbGet_open st _ _ hc, hk, ite_false, if_neg]
      rw [hred] at h
      exact saveService_not_skip cl now st s et h
    | some j =>
      cases hm : unmarshalL9 j with
      | none =>
        exfalso
        have hred : onService cl now st s et = ⟨st, [], some (.cache .unmarshalFailure)⟩ := by
          simp only [onService, hns, hname, dbGet_open st _ _ hc, hk, hm, ite_false, if_neg]
        rw [hred] at h
        simp at h
      | some ex =>
        cases hlt : strLt ex.ReferenceVersion s.resourceVersion with
        | true =>
          exfalso
          have hred : onService cl now st s et = saveService cl now st s et := by
            simp only [onService, hns, hname, dbGet_open st _ _ hc, hk, hm, hlt,
              ite_true, ite_false, if_neg]
          rw [hred] at h
          exact saveService_not_skip cl now st s et h
        | false => exact ⟨j, ex, rfl, hm, hlt⟩
  · rintro ⟨j, ex, hk, hm, hlt⟩
    have hred : onService cl now st s et = ⟨st, [], none⟩ := by
      simp [onService, hns, hname, dbGet_open st _ _ hc, hk, hm, hlt]
    rw [hred]
    exact ⟨rfl, rfl⟩

theorem runServices_processed (cl : KClient) (now : Int) (et : String) (u : String) :
    ∀ svcs : List KService,
      (∀ s ∈ svcs, s.uid = u ∧ ¬(s.ns = "kube-system" ∨ s.ns = "kubernetes-dashboard") ∧
        ¬(s.name = "kubernetes") ∧ ∃ ps, cl.getPods s = .ok ps) →
      ∀ st : Cache, st.closed = false → kvGet st.data (makeKey "events" u) = none →
        ∀ o ∈ (runServices cl now et st svcs).2, o.length = 1 := by
  intro svcs
  induction svcs with
  | nil =>
    intro _ st _ _ o ho
    simp [runServices] at ho
  | cons s rest ih =>
    intro hall st hc habs
    obtain ⟨hu, hns, hname, ps, hp⟩ := hall s (List.mem_cons_self _ _)
    have hrest := fun x hx => hall x (List.mem_cons_of_mem _ hx)
    have habs' : kvGet st.data (makeKey "events" s.uid) = none := by
      rw [hu]
      exact habs
    obtain ⟨st', hrun, hc', hpres⟩ :=
      onService_process cl now st s et ps hns hname hc habs' hp
    intro o ho
    simp only [runServices] at ho
    rw [hrun] at ho
    simp only [List.mem_cons] at ho
    cases ho with
    | inl ho => rw [ho]; rfl
    | inr ho =>
      have hID : (makeL9ServiceEvent st' s ps et now).ID =
          s.uid ++ "-" ++ s.resourceVersion := rfl
      have hne : makeKey "events" (makeL9ServiceEvent st' s ps et now).ID ≠
          makeKey "events" u := by
        rw [hID, hu]
        apply makeKey_ne_of_len
        have hlen : (u ++ "-" ++ s.resourceVersion).data.length =
            u.data.length + 1 + s.resourceVersion.data.length := by
          simp [String.data_append]
          omega
        omega
      have hst1c : (recordOutputs st' [makeL9ServiceEvent st' s ps et now]).closed = false := by
        rw [recordOutputs_closed]
        exact hc'
      have hst1abs : kvGet (recordOutputs st' [makeL9ServiceEvent st' s ps et now]).data
          (makeKey "events" u) = none := by
        rw [kvGet_recordOutputs_ne _ _ ?hne]
        case hne =>
          intro ev hev
          simp at hev
          rw [hev]
          exact hne
        rw [hpres]
        · exact habs
        · rw [makeKey_head "events" u rfl]
          rfl
      exact ih hrest _ hst1c hst1abs o ho

/- Marshal and unmarshal roundtrip lemmas for services. -/

theorem mapM_loop_decStrPair (m : List (String × String)) :
    ∀ acc : List (String × String),
      List.mapM.loop decStrPair (m.map fun kv => (kv.1, Json.str kv.2)) acc =
        some (acc.reverse ++ m) := by
  induction m with
  | nil => intro acc; simp [List.mapM.loop]
  | cons a rest ih =>
    intro acc
    cases a with
    | mk a1 a2 => simp [List.mapM.loop, decStrPair, ih]

theorem unmarshalSvc_marshalSvc (s : KService) :
    unmarshalSvc (marshalSvc s) = some s := by
  cases s with
  | mk uid name nsf rv lbl ann =>
    simp [unmarshalSvc, marshalSvc, kvGet, decStr, decStrMap, encStrMap,
      mapM_loop_decStrPair]

/- Concrete single-pod service run, exposing the written keys. -/

theorem filterMap_strip_cons (pre uid : String) (v : Json) (L : List (String × Json)) :
    ((makeKey pre uid, v) :: L).filterMap (fun kv => strStripPre (pre ++ "-") kv.1) =
      uid :: L.filterMap (fun kv => strStripPre (pre ++ "-") kv.1) := by
  simp [List.filterMap_cons, strStripPre_makeKey]

theorem onService_single_run (cl : KClient) (now : Int) (st : Cache) (s : KService)
    (et : String) (p : KPod)
    (hns : ¬(s.ns = "kube-system" ∨ s.ns = "kubernetes-dashboard"))
    (hname : ¬(s.name = "kubernetes"))
    (hc : st.closed = false)
    (habs : kvGet st.data (makeKey "events" s.uid) = none)
    (hp : cl.getPods s = .ok [p]) :
    ∃ i3 : List String,
      onService cl now st s et =
        ⟨⟨kvSet (kvSet (kvSet st.data (makeKey "service" s.uid) (marshalSvc s))
              (makeKey "service-pods" s.uid) (.arr [marshalPod p]))
            (makeKey (makeKey "pod-service" p.uid) s.uid) (.bool true), i3, false⟩,
         [makeL9ServiceEvent
            ⟨kvSet (kvSet (kvSet st.data (makeKey "service" s.uid) (marshalSvc s))
                (makeKey "service-pods" s.uid) (.arr [marshalPod p]))
              (makeKey (makeKey "pod-service" p.uid) s.uid) (.bool true), i3, false⟩
            s [p] et now], none⟩ := by
  obtain ⟨i1, h1⟩ : ∃ i1, Cache.Set st "service" s.uid (.svc s) =
      .ok ⟨kvSet st.data (makeKey "service" s.uid) (marshalSvc s), i1, false⟩ :=
    ⟨_, Set_ok st "service" s.uid (.svc s) (marshalSvc s) rfl hc⟩
  obtain ⟨i2, h2⟩ : ∃ i2,
      Cache.Set ⟨kvSet st.data (makeKey "service" s.uid) (marshalSvc s), i1, false⟩
        "service-pods" s.uid (.pods [p]) =
      .ok ⟨kvSet (kvSet st.data (makeKey "service" s.uid) (marshalSvc s))
            (makeKey "service-pods" s.uid) (.arr [marshalPod p]), i2, false⟩ :=
    ⟨_, Set_ok _ "service-pods" s.uid (.pods [p]) (.arr [marshalPod p]) rfl rfl⟩
  obtain ⟨i3, h3⟩ : ∃ i3,
      Cache.Set ⟨kvSet (kvSet st.data (makeKey "service" s.uid) (marshalSvc s))
            (makeKey "service-pods" s.uid) (.arr [marshalPod p]), i2, false⟩
        (makeKey "pod-service" p.uid) s.uid (.flag true) =
      .ok ⟨kvSet (kvSet (kvSet st.data (makeKey "service" s.uid) (marshalSvc s))
              (makeKey "service-pods" s.uid) (.arr [marshalPod p]))
            (makeKey (makeKey "pod-service" p.uid) s.uid) (.bool true), i3, false⟩ :=
    ⟨_, Set_ok _ (makeKey "pod-service" p.uid) s.uid (.flag true) (.bool true) rfl rfl⟩
  refine ⟨i3, ?_⟩
  simp only [onService, hns, hname, dbGet_open st _ _ hc, habs, ite_false, if_neg,
    saveService, h1, hp, h2, setPodService, h3]


theorem resolveServiceNames_cons_found (db : Cache) (sId : String) (ids : List String)
    (j : Json) (v : KService) (hc : db.closed = false)
    (hkv : kvGet db.data (makeKey "service" sId) = some j)
    (hum : unmarshalSvc j = some v) :
    resolveServiceNames db (sId :: ids) = v.name :: resolveServiceNames db ids := by
  simp only [resolveServiceNames, dbGet_open db _ _ hc, hkv, hum]

theorem c3_core (cl : KClient) (d : List (String × Json)) (i3 : List String)
    (s : KService) (p p2 : KPod) (e : KEvent) (u : Unstructured) (v2 : Json)
    (hens : ¬(e.ns = "kube-system" ∨ e.ns = "kubernetes" ∨ e.ns = "kubernetes-dashboard"))
    (heabs : kvGet d (makeKey "events" e.uid) = none)
    (hobj : cl.getObject e.involvedObject = .ok (some u))
    (hkind : lowerStr u.kind = "pod")
    (hpod : u.asPod = some p2)
    (hpuid : p2.uid = p.uid) :
    ∃ ev pm l, (onEvent cl (⟨(kvSet (kvSet (kvSet d (makeKey "service" s.uid) (marshalSvc s)) (makeKey "service-pods" s.uid) v2) (makeKey (makeKey "pod-service" p.uid) s.uid) (Json.bool true)), i3, false⟩ : Cache) e).out = [ev] ∧
      ev.Pod = some pm ∧ kvGet pm "impacted_services" = some (.strList l) ∧
      s.name ∈ l := by
  have hne1 : makeKey "events" e.uid ≠ makeKey "service" s.uid :=
    makeKey_ne_of_head _ _ _ _ 'e' 's' rfl rfl (by decide)
  have hne2 : makeKey "events" e.uid ≠ makeKey "service-pods" s.uid :=
    makeKey_ne_of_head _ _ _ _ 'e' 's' rfl rfl (by decide)
  have hne3 : makeKey "events" e.uid ≠ makeKey (makeKey "pod-service" p.uid) s.uid :=
    makeKey_ne_of_head _ _ _ _ 'e' 'p' rfl (makeKey_head "pod-service" p.uid rfl)
      (by decide)
  have hkvE : kvGet (kvSet (kvSet (kvSet d (makeKey "service" s.uid) (marshalSvc s)) (makeKey "service-pods" s.uid) v2) (makeKey (makeKey "pod-service" p.uid) s.uid) (Json.bool true)) (makeKey "events" e.uid) = none := by
    rw [kvGet_kvSet_ne _ _ _ _ hne3, kvGet_kvSet_ne _ _ _ _ hne2,
      kvGet_kvSet_ne _ _ _ _ hne1]
    exact heabs
  have hne13 : makeKey "service" s.uid ≠ makeKey (makeKey "pod-service" p.uid) s.uid :=
    makeKey_ne_of_head _ _ _ _ 's' 'p' rfl (makeKey_head "pod-service" p.uid rfl)
      (by decide)
  have hne12 : makeKey "service" s.uid ≠ makeKey "service-pods" s.uid := by
    apply makeKey_ne_of_len
    have e1 : ("service" : String).data.length = 7 := rfl
    have e2 : ("service-pods" : String).data.length = 12 := rfl
    omega
  have hkvS : kvGet (kvSet (kvSet (kvSet d (makeKey "service" s.uid) (marshalSvc s)) (makeKey "service-pods" s.uid) v2) (makeKey (makeKey "pod-service" p.uid) s.uid) (Json.bool true)) (makeKey "service" s.uid) = some (marshalSvc s) := by
    rw [kvGet_kvSet_ne _ _ _ _ hne13, kvGet_kvSet_ne _ _ _ _ hne12, kvGet_kvSet_self]
  have hfm : List.filterMap
      (fun kv => strStripPre (makeKey "pod-service" p.uid ++ "-") kv.1)
      (kvSet (kvSet (kvSet d (makeKey "service" s.uid) (marshalSvc s)) (makeKey "service-pods" s.uid) v2) (makeKey (makeKey "pod-service" p.uid) s.uid) (Json.bool true)) =
      s.uid :: List.filterMap
        (fun kv => strStripPre (makeKey "pod-service" p.uid ++ "-") kv.1)
        ((kvSet (kvSet d (makeKey "service" s.uid) (marshalSvc s)) (makeKey "service-pods" s.uid) v2).filter (fun kv => !(kv.1 == makeKey (makeKey "pod-service" p.uid) s.uid))) :=
    filterMap_strip_cons (makeKey "pod-service" p.uid) s.uid (Json.bool true) _
  have hgps : ∃ rest, getPodServices (⟨(kvSet (kvSet (kvSet d (makeKey "service" s.uid) (marshalSvc s)) (makeKey "service-pods" s.uid) v2) (makeKey (makeKey "pod-service" p.uid) s.uid) (Json.bool true)), i3, false⟩ : Cache) p2.uid = (s.name :: rest, none) := by
    rw [hpuid]
    refine ⟨resolveServiceNames (⟨(kvSet (kvSet (kvSet d (makeKey "service" s.uid) (marshalSvc s)) (makeKey "service-pods" s.uid) v2) (makeKey (makeKey "pod-service" p.uid) s.uid) (Json.bool true)), i3, false⟩ : Cache)
      (List.filterMap (fun kv => strStripPre (makeKey "pod-service" p.uid ++ "-") kv.1)
        ((kvSet (kvSet d (makeKey "service" s.uid) (marshalSvc s)) (makeKey "service-pods" s.uid) v2).filter (fun kv => !(kv.1 == makeKey (makeKey "pod-service" p.uid) s.uid)))), ?_⟩
    simp only [getPodServices, dbList]
    simp only [hfm]
    simp only [Bool.false_eq_true, if_false]
    rw [resolveServiceNames_cons_found (⟨(kvSet (kvSet (kvSet d (makeKey "service" s.uid) (marshalSvc s)) (makeKey "service-pods" s.uid) v2) (makeKey (makeKey "pod-service" p.uid) s.uid) (Json.bool true)), i3, false⟩ : Cache) s.uid _ (marshalSvc s) s rfl hkvS
      (unmarshalSvc_marshalSvc s)]
  obtain ⟨restNames, hgps⟩ := hgps
  have hoe : ∃ a, onEvent cl (⟨(kvSet (kvSet (kvSet d (makeKey "service" s.uid) (marshalSvc s)) (makeKey "service-pods" s.uid) v2) (makeKey (makeKey "pod-service" p.uid) s.uid) (Json.bool true)), i3, false⟩ : Cache) e =
      ⟨(⟨(kvSet (kvSet (kvSet d (makeKey "service" s.uid) (marshalSvc s)) (makeKey "service-pods" s.uid) v2) (makeKey (makeKey "pod-service" p.uid) s.uid) (Json.bool true)), i3, false⟩ : Cache), [makeL9Event (⟨(kvSet (kvSet (kvSet d (makeKey "service" s.uid) (marshalSvc s)) (makeKey "service-pods" s.uid) v2) (makeKey (makeKey "pod-service" p.uid) s.uid) (Json.bool true)), i3, false⟩ : Cache) e (some u) a], none⟩ := by
    refine ⟨(match cl.getNodeAddress e.source.host with
      | .error _ => []
      | .ok a => a), ?_⟩
    simp only [onEvent, hens, dbGet, hkvE, hobj, ite_false, if_neg,
      Bool.false_eq_true, if_false]
  obtain ⟨a, hoe⟩ := hoe
  have hpd : (makeL9Event (⟨(kvSet (kvSet (kvSet d (makeKey "service" s.uid) (marshalSvc s)) (makeKey "service-pods" s.uid) v2) (makeKey (makeKey "pod-service" p.uid) s.uid) (Json.bool true)), i3, false⟩ : Cache) e (some u) a).Pod =
      some (kvSet (miniPodInfo p2) "impacted_services"
        (.strList (s.name :: restNames))) := by
    simp [makeL9Event, addPodDetails, hkind, hpod, hgps]
  exact ⟨makeL9Event (⟨(kvSet (kvSet (kvSet d (makeKey "service" s.uid) (marshalSvc s)) (makeKey "service-pods" s.uid) v2) (makeKey (makeKey "pod-service" p.uid) s.uid) (Json.bool true)), i3, false⟩ : Cache) e (some u) a,
    kvSet (miniPodInfo p2) "impacted_services" (.strList (s.name :: restNames)),
    s.name :: restNames, by rw [hoe], hpd, kvGet_kvSet_self _ _ _,
    List.mem_cons_self _ _⟩

/- An onEvent run past the gate, with the enrichment lookups left free. -/

theorem onEvent_miss (cl : KClient) (st : Cache) (e : KEvent)
    (hns : ¬(e.ns = "kube-system" ∨ e.ns = "kubernetes" ∨ e.ns = "kubernetes-dashboard"))
    (hc : st.closed = false)
    (hk : kvGet st.data (makeKey "events" e.uid) = none) :
    onEvent cl st e =
      ⟨st, [makeL9Event st e
        (match cl.getObject e.involvedObject with
          | .error _ => none
          | .ok u => u)
        (match cl.getNodeAddress e.source.host with
          | .error _ => []
          | .ok a => a)], none⟩ := by
  simp only [onEvent, hns, dbGet_open st _ _ hc, hk, ite_false, if_neg]

/- Claim theorems and their witnesses. -/

/-- C10: OnUpdate's behavior depends only on the new object: any two old objects
produce identical processing, because the old object is never inspected by the
handler. -/
theorem c10_onupdate_ignores_old :
    ∀ (cl : KClient) (now : Int) (st : Cache) (old1 old2 newObj : SinkObj),
      OnUpdate cl now st old1 newObj = OnUpdate cl now st old2 newObj :=
  fun _ _ _ _ _ _ => rfl

/-- C9: ExpireSet is atomic on serialization failure: when json marshaling of the
value fails, ExpireSet returns the marshaling error before the write transaction
opens, and no ok state is ever produced, so no key is written and no index is
created. -/
theorem c9_marshal_failure_atomic :
    ∀ (c : Cache) (t u : String) (obj : StoredVal) (ttl : Int),
      marshal obj = none →
      Cache.ExpireSet c t u obj ttl = .error .marshalFailure ∧
      ∀ c', Cache.ExpireSet c t u obj ttl ≠ .ok c' := by
  intro c t u obj ttl hm
  have h := ExpireSet_marshal_fail c t u obj ttl hm
  refine ⟨h, fun c' hcon => ?_⟩
  rw [h] at hcon
  simp at hcon

/-- Witness for C9 at a concrete unserializable value on the empty store. -/
theorem c9_witness :
    marshal .unserializable = none ∧
    Cache.ExpireSet exStore "events" "E1" .unserializable 5 = .error .marshalFailure :=
  ⟨rfl, (c9_marshal_failure_atomic exStore "events" "E1" .unserializable 5 rfl).1⟩

/-- C8: a set immediately followed by a get on the same composite key reports found
and yields the exact payload that was stored for the value. -/
theorem c8_roundtrip :
    ∀ (c : Cache) (t u : String) (v : StoredVal) (b : Json),
      marshal v = some b → c.closed = false →
      ∃ c', Cache.Set c t u v = .ok c' ∧ Cache.Get c' t u = (false, some b, none) := by
  intro c t u v b hm hc
  refine ⟨_, Set_ok c t u v b hm hc, ?_⟩
  apply Get_found
  · rfl
  · exact kvGet_kvSet_self _ _ _

/-- Witness for C8 at a concrete flag value on the empty store. -/
theorem c8_witness :
    marshal (.flag true) = some (.bool true) ∧ exStore.closed = false ∧
    ∃ c', Cache.Set exStore "service" "S1uid" (.flag true) = .ok c' ∧
      Cache.Get c' "service" "S1uid" = (false, some (.bool true), none) :=
  ⟨rfl, rfl, c8_roundtrip exStore "service" "S1uid" (.flag true) (.bool true) rfl rfl⟩

/-- C7: a successful set or setWithTTL guarantees the table's string index exists
afterwards; the first write to an unseen table creates it in the same transaction,
and every later write to that table finds it present and leaves the index list
unchanged. -/
theorem c7_index_registration :
    ∀ (c c' : Cache) (t u : String) (obj : StoredVal) (ttl : Int),
      Cache.ExpireSet c t u obj ttl = .ok c' →
      t ∈ c'.indices ∧
      (t ∈ c.indices → c'.indices = c.indices) ∧
      (t ∉ c.indices → c'.indices = t :: c.indices) ∧
      ∀ (u2 : String) (obj2 : StoredVal) (ttl2 : Int) (c'' : Cache),
        Cache.ExpireSet c' t u2 obj2 ttl2 = .ok c'' → c''.indices = c'.indices := by
  intro c c' t u obj ttl h
  cases hm : marshal obj with
  | none =>
    rw [ExpireSet_marshal_fail c t u obj ttl hm] at h
    simp at h
  | some b =>
    cases hc : c.closed with
    | true =>
      simp [Cache.ExpireSet, hm, hc] at h
    | false =>
      rw [ExpireSet_ok c t u obj ttl b hm hc] at h
      injection h with h'
      subst h'
      refine ⟨?_, ?_, ?_, ?_⟩
      · by_cases hi : t ∈ c.indices <;> simp [hi]
      · intro hi
        simp [hi]
      · intro hi
        simp [hi]
      · intro u2 obj2 ttl2 c'' h2
        cases hm2 : marshal obj2 with
        | none =>
          rw [ExpireSet_marshal_fail _ _ _ _ _ hm2] at h2
          simp at h2
        | some b2 =>
          rw [ExpireSet_ok _ t u2 obj2 ttl2 b2 hm2 rfl] at h2
          injection h2 with h2'
          subst h2'
          have hmem : t ∈ (if t ∈ c.indices then c.indices else t :: c.indices) := by
            by_cases hi : t ∈ c.indices <;> simp [hi]
          simp [hmem]

/-- Witness for C7: the first write to the events table registers its index, a
second write leaves the index list unchanged. -/
theorem c7_witness :
    Cache.ExpireSet exStore "events" "E1" (.flag true) 0 =
      .ok ⟨[(makeKey "events" "E1", Json.bool true)], ["events"], false⟩ ∧
    "events" ∈ (Cache.mk [(makeKey "events" "E1", Json.bool true)] ["events"] false).indices ∧
    (Cache.mk [(makeKey "events" "E1", Json.bool true)] ["events"] false).indices =
      "events" :: exStore.indices :=
  ⟨rfl,
   (c7_index_registration exStore _ "events" "E1" (.flag true) 0 rfl).1,
   (c7_index_registration exStore _ "events" "E1" (.flag true) 0 rfl).2.2.1
     (by decide)⟩

/-- C4: the point lookup distinguishes found from not found without a sentinel
collision: on an open store a missing key yields the missing flag with buntdb's
ErrNotFound while a store failure yields an error with the flag still false; the
handler-level lookup reports a miss as a non-error outcome, so in onEvent a cache
miss does not abort the notification (it is enriched and pushed with no error) while
a store failure is propagated and aborts it with nothing pushed. -/
theorem c4_lookup_distinguishes :
    (∀ (c : Cache) (t u : String), c.closed = false →
      (kvGet c.data (makeKey t u) = none →
        Cache.Get c t u = (true, none, some .errNotFound)) ∧
      (∀ v, kvGet c.data (makeKey t u) = some v →
        Cache.Get c t u = (false, some v, none))) ∧
    (∀ (c : Cache) (t u : String), c.closed = true →
      Cache.Get c t u = (false, none, some .errDatabaseClosed)) ∧
    (∀ (c : Cache) (t u : String), c.closed = false →
      kvGet c.data (makeKey t u) = none → dbGet c t u = .ok none) ∧
    (∀ (cl : KClient) (st : Cache) (e : KEvent),
      ¬(e.ns = "kube-system" ∨ e.ns = "kubernetes" ∨ e.ns = "kubernetes-dashboard") →
      st.closed = false → kvGet st.data (makeKey "events" e.uid) = none →
      (onEvent cl st e).err = none ∧ (onEvent cl st e).out ≠ []) ∧
    (∀ (cl : KClient) (st : Cache) (e : KEvent),
      ¬(e.ns = "kube-system" ∨ e.ns = "kubernetes" ∨ e.ns = "kubernetes-dashboard") →
      st.closed = true →
      onEvent cl st e = ⟨st, [], some (.cache .errDatabaseClosed)⟩) := by
  refine ⟨?_, ?_, ?_, ?_, ?_⟩
  · intro c t u hc
    exact ⟨fun h => Get_miss c t u hc h, fun v h => Get_found c t u v hc h⟩
  · intro c t u hc
    exact Get_closed c t u hc
  · intro c t u hc h
    rw [dbGet_open c t u hc, h]
  · intro cl st e hns hc hk
    rw [onEvent_miss cl st e hns hc hk]
    exact ⟨rfl, by simp⟩
  · intro cl st e hns hc
    simp only [onEvent, hns, dbGet_closed st _ _ hc, ite_false, if_neg]

/-- Witness for C4 on concrete stores: a miss on the open empty store, a closed
store failure, and the two onEvent outcomes. -/
theorem c4_witness :
    (exStore.closed = false ∧ kvGet exStore.data (makeKey "events" "x") = none ∧
      Cache.Get exStore "events" "x" = (true, none, some .errNotFound)) ∧
    (exStoreClosed.closed = true ∧
      Cache.Get exStoreClosed "events" "x" = (false, none, some .errDatabaseClosed)) ∧
    dbGet exStore "events" "x" = .ok none ∧
    ((onEvent exClient exStore exEvent).err = none ∧
      (onEvent exClient exStore exEvent).out ≠ []) ∧
    onEvent exClient exStoreClosed exEvent =
      ⟨exStoreClosed, [], some (.cache .errDatabaseClosed)⟩ :=
  ⟨⟨rfl, rfl, (c4_lookup_distinguishes.1 exStore "events" "x" rfl).1 rfl⟩,
   ⟨rfl, c4_lookup_distinguishes.2.1 exStoreClosed "events" "x" rfl⟩,
   c4_lookup_distinguishes.2.2.1 exStore "events" "x" rfl rfl,
   c4_lookup_distinguishes.2.2.2.1 exClient exStore exEvent (by decide) rfl rfl,
   c4_lookup_distinguishes.2.2.2.2 exClient exStoreClosed exEvent (by decide) rfl⟩

/-- C5: when no service was ever registered for a pod uid in the reverse index,
impactedServices returns an empty list with no error; and in the enumeration loop a
service id whose record is missing or fails to unmarshal is skipped without failing
the whole lookup, whose returned error stays nil on an open store. -/
theorem c5_reverse_index_tolerant :
    (∀ (db : Cache) (uid : String), db.closed = false →
      (∀ kv ∈ db.data, strStripPre (makeKey "pod-service" uid ++ "-") kv.1 = none) →
      getPodServices db uid = ([], none)) ∧
    (∀ (db : Cache) (sId : String) (ids : List String),
      dbGet db "service" sId = .ok none →
      resolveServiceNames db (sId :: ids) = resolveServiceNames db ids) ∧
    (∀ (db : Cache) (sId : String) (ids : List String) (j : Json),
      dbGet db "service" sId = .ok (some j) → unmarshalSvc j = none →
      resolveServiceNames db (sId :: ids) = resolveServiceNames db ids) ∧
    (∀ (db : Cache) (uid : String), db.closed = false →
      (getPodServices db uid).2 = none) := by
  refine ⟨?_, ?_, ?_, ?_⟩
  · intro db uid hc h
    have hnil : db.data.filterMap
        (fun kv => strStripPre (makeKey "pod-service" uid ++ "-") kv.1) = [] :=
      List.filterMap_eq_nil_iff.mpr h
    simp only [getPodServices, dbList_open db _ hc, hnil, resolveServiceNames]
  · intro db sId ids h
    simp only [resolveServiceNames, h]
  · intro db sId ids j h hum
    simp only [resolveServiceNames, h, hum]
  · intro db uid hc
    simp only [getPodServices, dbList_open db _ hc]

/-- Witness for C5 on the empty store and a pod uid never referenced. -/
theorem c5_witness :
    exStore.closed = false ∧
    (∀ kv ∈ exStore.data, strStripPre (makeKey "pod-service" "P9" ++ "-") kv.1 = none) ∧
    getPodServices exStore "P9" = ([], none) ∧
    resolveServiceNames exStore ["ghost"] = resolveServiceNames exStore [] :=
  ⟨rfl, by simp [exStore],
   c5_reverse_index_tolerant.1 exStore "P9" rfl (by simp [exStore]),
   c5_reverse_index_tolerant.2.1 exStore "ghost" [] rfl⟩

/-- C6: for an event past the namespace filter and the dedup gate, a failure to
resolve the involved object or the node address — either one alone or both — is
never fatal: the enriched event is still built and pushed with no error, and when
the involved object is unresolved the fields derived from it are left unpopulated
regardless of the resolved address. -/
theorem c6_partial_enrichment :
    (∀ (cl : KClient) (st : Cache) (e : KEvent) (m1 : String) (a : List String),
      ¬(e.ns = "kube-system" ∨ e.ns = "kubernetes" ∨ e.ns = "kubernetes-dashboard") →
      st.closed = false → kvGet st.data (makeKey "events" e.uid) = none →
      cl.getObject e.involvedObject = .error m1 →
      cl.getNodeAddress e.source.host = .ok a →
      onEvent cl st e = ⟨st, [makeL9Event st e none a], none⟩) ∧
    (∀ (cl : KClient) (st : Cache) (e : KEvent) (u : Option Unstructured) (m2 : String),
      ¬(e.ns = "kube-system" ∨ e.ns = "kubernetes" ∨ e.ns = "kubernetes-dashboard") →
      st.closed = false → kvGet st.data (makeKey "events" e.uid) = none →
      cl.getObject e.involvedObject = .ok u →
      cl.getNodeAddress e.source.host = .error m2 →
      onEvent cl st e = ⟨st, [makeL9Event st e u []], none⟩) ∧
    (∀ (cl : KClient) (st : Cache) (e : KEvent) (m1 m2 : String),
      ¬(e.ns = "kube-system" ∨ e.ns = "kubernetes" ∨ e.ns = "kubernetes-dashboard") →
      st.closed = false → kvGet st.data (makeKey "events" e.uid) = none →
      cl.getObject e.involvedObject = .error m1 →
      cl.getNodeAddress e.source.host = .error m2 →
      onEvent cl st e = ⟨st, [makeL9Event st e none []], none⟩) ∧
    (∀ (st : Cache) (e : KEvent) (a : List String),
      (makeL9Event st e none a).ReferenceKind = "" ∧
      (makeL9Event st e none a).ReferenceNamespace = "" ∧
      (makeL9Event st e none a).ObjectUid = "" ∧
      (makeL9Event st e none a).Labels = [] ∧
      (makeL9Event st e none a).Annotations = [] ∧
      (makeL9Event st e none a).Pod = none ∧
      (makeL9Event st e none a).Address = a ∧
      (makeL9Event st e none a).ID = e.uid) := by
  refine ⟨?_, ?_, ?_, ?_⟩
  · intro cl st e m1 a hns hc hk hobj haddr
    rw [onEvent_miss cl st e hns hc hk, hobj, haddr]
  · intro cl st e u m2 hns hc hk hobj haddr
    rw [onEvent_miss cl st e hns hc hk, hobj, haddr]
  · intro cl st e m1 m2 hns hc hk hobj haddr
    rw [onEvent_miss cl st e hns hc hk, hobj, haddr]
  · intro st e a
    exact ⟨rfl, rfl, rfl, rfl, rfl, rfl, rfl, rfl⟩

/-- Witness for C6: the object-failure-only, address-failure-only and both-failing
clients on the empty store, each still pushing one event with no error. -/
theorem c6_witness :
    (exStore.closed = false ∧
      kvGet exStore.data (makeKey "events" exEvent.uid) = none ∧
      exClientObjFail.getObject exEvent.involvedObject = .error "object lookup failed" ∧
      exClientObjFail.getNodeAddress exEvent.source.host = .ok ["10.0.0.9"] ∧
      onEvent exClientObjFail exStore exEvent =
        ⟨exStore, [makeL9Event exStore exEvent none ["10.0.0.9"]], none⟩) ∧
    (exClientAddrFail.getObject exEvent.involvedObject = .ok (some exObj) ∧
      exClientAddrFail.getNodeAddress exEvent.source.host = .error "no address" ∧
      onEvent exClientAddrFail exStore exEvent =
        ⟨exStore, [makeL9Event exStore exEvent (some exObj) []], none⟩) ∧
    (exClientFail.getObject exEvent.involvedObject = .error "object lookup failed" ∧
      exClientFail.getNodeAddress exEvent.source.host = .error "no address" ∧
      onEvent exClientFail exStore exEvent =
        ⟨exStore, [makeL9Event exStore exEvent none []], none⟩) ∧
    ((makeL9Event exStore exEvent none ["10.0.0.9"]).ReferenceKind = "" ∧
      (makeL9Event exStore exEvent none ["10.0.0.9"]).ObjectUid = "" ∧
      (makeL9Event exStore exEvent none ["10.0.0.9"]).Pod = none ∧
      (makeL9Event exStore exEvent none ["10.0.0.9"]).ID = exEvent.uid) :=
  ⟨⟨rfl, rfl, rfl, rfl,
    c6_partial_enrichment.1 exClientObjFail exStore exEvent "object lookup failed"
      ["10.0.0.9"] (by decide) rfl rfl rfl rfl⟩,
   ⟨rfl, rfl,
    c6_partial_enrichment.2.1 exClientAddrFail exStore exEvent (some exObj)
      "no address" (by decide) rfl rfl rfl rfl⟩,
   ⟨rfl, rfl,
    c6_partial_enrichment.2.2.1 exClientFail exStore exEvent "object lookup failed"
      "no address" (by decide) rfl rfl rfl rfl⟩,
   ⟨(c6_partial_enrichment.2.2.2 exStore exEvent ["10.0.0.9"]).1,
    (c6_partial_enrichment.2.2.2 exStore exEvent ["10.0.0.9"]).2.2.1,
    (c6_partial_enrichment.2.2.2 exStore exEvent ["10.0.0.9"]).2.2.2.2.2.1,
    (c6_partial_enrichment.2.2.2 exStore exEvent ["10.0.0.9"]).2.2.2.2.2.2.2⟩⟩

/-- C1: at most one enriched event is forwarded per resource-event identity: when
the uid is present in the events table onEvent drops the notification silently (no
push, no store change, no error, independent of the client, so no re-enrichment);
onEvent pushes only when the uid was absent at check time; the add, update and
delete callbacks all funnel an event to the same onEvent; and over a lifetime run in
which forwarded identities are recorded, any stream of event notifications sharing
one uid yields at most one pushed event. -/
theorem c1_at_most_one_per_identity :
    (∀ (cl : KClient) (st : Cache) (e : KEvent),
      st.closed = false → (kvGet st.data (makeKey "events" e.uid)).isSome →
        onEvent cl st e = ⟨st, [], none⟩) ∧
    (∀ (cl : KClient) (st : Cache) (e : KEvent),
      (onEvent cl st e).out ≠ [] → kvGet st.data (makeKey "events" e.uid) = none) ∧
    (∀ (cl : KClient) (now : Int) (st : Cache) (old : SinkObj) (e : KEvent),
      OnAdd cl now st (.ev e) = ((onEvent cl st e).st, (onEvent cl st e).out) ∧
      OnUpdate cl now st old (.ev e) = ((onEvent cl st e).st, (onEvent cl st e).out) ∧
      OnDelete cl now st (.ev e) = ((onEvent cl st e).st, (onEvent cl st e).out)) ∧
    (∀ (cl : KClient) (u : String) (es : List KEvent),
      (∀ e ∈ es, e.uid = u) → ∀ st : Cache, (runEvents cl st es).2.length ≤ 1) := by
  refine ⟨?_, ?_, ?_, ?_⟩
  · intro cl st e hc hp
    cases hk : kvGet st.data (makeKey "events" e.uid) with
    | none =>
      rw [hk] at hp
      simp at hp
    | some j => exact onEvent_present_drop cl st e j hc hk
  · intro cl st e hne
    rcases onEvent_out_push cl st e with h | h
    · exact absurd h hne
    · exact h.2.1
  · intro cl now st old e
    exact ⟨rfl, rfl, rfl⟩
  · intro cl u es h st
    exact runEvents_le_one cl u es h st

/-- Witness for C1: a present identity is dropped, and a duplicate delivery of the
same event produces at most one output over the run. -/
theorem c1_witness :
    (exStorePresent.closed = false ∧
      (kvGet exStorePresent.data (makeKey "events" exEvent.uid)).isSome ∧
      onEvent exClient exStorePresent exEvent = ⟨exStorePresent, [], none⟩) ∧
    ((∀ e ∈ [exEvent, exEvent], KEvent.uid e = "E1") ∧
      (runEvents exClient exStore [exEvent, exEvent]).2.length ≤ 1) :=
  ⟨⟨rfl, rfl, c1_at_most_one_per_identity.1 exClient exStorePresent exEvent rfl rfl⟩,
   ⟨by decide, c1_at_most_one_per_identity.2.2.2 exClient "E1" [exEvent, exEvent]
      (by decide) exStore⟩⟩

/-- C2: for a service outside the filtered namespaces on an open store, processing
is skipped (no push, no error) exactly when the events table holds a record for the
bare service uid that unmarshals to a stored reference version greater than or equal
to the incoming resource version, in Go's byte-lexicographic string order; and over
a lifetime run recording forwarded identities under the versioned dedup identity,
every service change in a strictly increasing version sequence is processed, pushing
exactly one event, none deduplicated. -/
theorem c2_service_version_gate :
    (∀ (cl : KClient) (now : Int) (st : Cache) (s : KService) (et : String),
      ¬(s.ns = "kube-system" ∨ s.ns = "kubernetes-dashboard") →
      ¬(s.name = "kubernetes") → st.closed = false →
      (((onService cl now st s et).out = [] ∧ (onService cl now st s et).err = none) ↔
        (∃ j ex, kvGet st.data (makeKey "events" s.uid) = some j ∧
          unmarshalL9 j = some ex ∧
          strLt ex.ReferenceVersion s.resourceVersion = false))) ∧
    (∀ (cl : KClient) (now : Int) (et : String) (u : String) (svcs : List KService),
      (∀ s ∈ svcs, s.uid = u ∧ ¬(s.ns = "kube-system" ∨ s.ns = "kubernetes-dashboard") ∧
        ¬(s.name = "kubernetes") ∧ ∃ ps, cl.getPods s = .ok ps) →
      List.Chain' (fun a b => strLt a.resourceVersion b.resourceVersion = true) svcs →
      ∀ st : Cache, st.closed = false → kvGet st.data (makeKey "events" u) = none →
        ∀ o ∈ (runServices cl now et st svcs).2, o.length = 1) := by
  refine ⟨?_, ?_⟩
  · intro cl now st s et hns hname hc
    exact onService_skip_iff cl now st s et hns hname hc
  · intro cl now et u svcs hall hchain st hc habs
    exact runServices_processed cl now et u svcs hall st hc habs

/-- Witness for C2: the skip characterization at a store holding a newer stored
version, and a two-step strictly increasing run on the empty store. -/
theorem c2_witness :
    (¬(exSvc.ns = "kube-system" ∨ exSvc.ns = "kubernetes-dashboard") ∧
      ¬(exSvc.name = "kubernetes") ∧ exStoreSvcSeen.closed = false ∧
      (((onService exClient 0 exStoreSvcSeen exSvc "updatedService").out = [] ∧
        (onService exClient 0 exStoreSvcSeen exSvc "updatedService").err = none) ↔
        (∃ j ex, kvGet exStoreSvcSeen.data (makeKey "events" exSvc.uid) = some j ∧
          unmarshalL9 j = some ex ∧
          strLt ex.ReferenceVersion exSvc.resourceVersion = false))) ∧
    (List.Chain' (fun a b => strLt a.resourceVersion b.resourceVersion = true)
        [exSvc, exSvc8] ∧
      ∀ o ∈ (runServices exClient 0 "updatedService" exStore [exSvc, exSvc8]).2,
        o.length = 1) :=
  ⟨⟨by decide, by decide, rfl,
    c2_service_version_gate.1 exClient 0 exStoreSvcSeen exSvc "updatedService"
      (by decide) (by decide) rfl⟩,
   ⟨(by
      simp [List.chain'_cons, List.chain'_singleton, exSvc, exSvc8]
      decide),
    c2_service_version_gate.2 exClient 0 "updatedService" "S1uid" [exSvc, exSvc8]
      (by
        intro s hs
        simp at hs
        rcases hs with h | h <;> subst h <;>
          exact ⟨rfl, by decide, by decide, ⟨[exPod], rfl⟩⟩)
      (by
      simp [List.chain'_cons, List.chain'_singleton, exSvc, exSvc8]
      decide) exStore rfl rfl⟩⟩

/-- C3: when a processed service change resolved a pod P and a later event's
involved object resolves to a pod with the same uid, the enriched event's pod map
carries an impacted_services list containing the service's name: the reverse-index
write made by onService is visible to the later lookup. -/
theorem c3_impacted_services (cl : KClient) (now : Int) (st : Cache) (s : KService)
    (et : String) (p p2 : KPod) (e : KEvent) (u : Unstructured)
    (hns : ¬(s.ns = "kube-system" ∨ s.ns = "kubernetes-dashboard"))
    (hname : ¬(s.name = "kubernetes"))
    (hc : st.closed = false)
    (habs : kvGet st.data (makeKey "events" s.uid) = none)
    (hp : cl.getPods s = .ok [p])
    (hens : ¬(e.ns = "kube-system" ∨ e.ns = "kubernetes" ∨ e.ns = "kubernetes-dashboard"))
    (heabs : kvGet st.data (makeKey "events" e.uid) = none)
    (hobj : cl.getObject e.involvedObject = .ok (some u))
    (hkind : lowerStr u.kind = "pod")
    (hpod : u.asPod = some p2)
    (hpuid : p2.uid = p.uid) :
    ∃ ev pm l, (onEvent cl (onService cl now st s et).st e).out = [ev] ∧
      ev.Pod = some pm ∧ kvGet pm "impacted_services" = some (.strList l) ∧
      s.name ∈ l := by
  obtain ⟨i3, hrun⟩ := onService_single_run cl now st s et p hns hname hc habs hp
  rw [hrun]
  exact c3_core cl st.data i3 s p p2 e u (.arr [marshalPod p]) hens heabs hobj hkind
    hpod hpuid

/-- Witness for C3: the concrete scenario with service S1 selecting pod P1 and a
later pod event for P1. -/
theorem c3_witness :
    exStore.closed = false ∧ exClient.getPods exSvc = .ok [exPod] ∧
    exClient.getObject exEvent.involvedObject = .ok (some exObj) ∧
    lowerStr exObj.kind = "pod" ∧ exObj.asPod = some exPod ∧
    (∃ ev pm l,
      (onEvent exClient (onService exClient 100 exStore exSvc "addedService").st
        exEvent).out = [ev] ∧
      ev.Pod = some pm ∧ kvGet pm "impacted_services" = some (.strList l) ∧
      exSvc.name ∈ l) :=
  ⟨rfl, rfl, rfl, by decide, rfl,
   c3_impacted_services exClient 100 exStore exSvc "addedService" exPod exPod exEvent
     exObj (by decide) (by decide) rfl rfl rfl (by decide) rfl rfl (by decide) rfl
     rfl⟩
